import Mathlib

/-
Shallow embedding of the candle variable-storage and resolution layer:
`candle-nn/src/var_builder.rs` (VarMap, VarBuilder, get_sharded) and
`candle-core/src/device.rs` (Device::same_device).

Modelling conventions:
- Machine integers (`usize`) are `Nat`; no arithmetic in the embedded code
  overflows for the quantities involved (indices, shapes).
- A tensor is its shape, dtype, device tag and a row-major flat list of
  abstract scalar values (`Nat`); safetensors byte buffers are modelled at
  element granularity, which is faithful up to the constant dtype width that
  the codec applies uniformly to offsets and lengths.
- `HashMap<String, _>` is an association list with first-match lookup; an
  insert conses at the front, so a later insert shadows an earlier one exactly
  as `HashMap::insert` overwrites.
- Fallible Rust code (`Result<T>`) is `Except Error T`; a Rust panic (e.g. an
  out-of-bounds `Vec` index) is a distinct `Outcome.panic` constructor, never
  an `Error`.
- Error message strings are abbreviated but keep the distinguishing prefix of
  the source format string.
-/

namespace Candle

/-- Element data types of candle tensors (`DType` in candle-core). -/
inductive DType
  | U8
  | U32
  | BF16
  | F16
  | F32
  | F64
deriving DecidableEq, Repr

/-- Modelled from the spec: `CudaDevice` (candle-core's cuda backend) is not under
src/; per the spec a `Cuda` device is "bound to a specific physical ordinal/handle"
(`DeviceLocation::Cuda { gpu_id }` in device.rs). -/
structure CudaDevice where
  ordinal : Nat
deriving DecidableEq, Repr

/-- Modelled from the spec: `CudaDevice::same_device` is not under src/; per the
spec, two cuda devices are the same device iff they have the same physical ordinal. -/
def CudaDevice.same_device (a b : CudaDevice) : Bool :=
  a.ordinal == b.ordinal

/-- Compute device (`Device` in candle-core/src/device.rs). -/
inductive Device
  | Cpu
  | Cuda (d : CudaDevice)
deriving DecidableEq, Repr

/-- Embeds `Device::same_device` (device.rs lines 90-96). -/
def Device.same_device : Device → Device → Bool
  | .Cpu, .Cpu => true
  | .Cuda lhs, .Cuda rhs => lhs.same_device rhs
  | _, _ => false

/-- Immutable tensor handle: shape, dtype, device placement and row-major data. -/
structure Tensor where
  shape : List Nat
  dtype : DType
  device : Device
  data : List Nat
deriving DecidableEq, Repr

/-- Mutable named variable wrapping one tensor (`Var` in candle-core); mutation is
modelled by explicit state passing. -/
structure Var where
  tensor : Tensor
deriving DecidableEq, Repr

/-- Embeds `Var::as_tensor`. -/
def Var.as_tensor (v : Var) : Tensor := v.tensor

/-- Error taxonomy: the candle `Error` variants reached by the embedded code.
`candle::bail!` produces `Msg`. -/
inductive Error
  | CannotFindTensor (path : String)
  | ShapeMismatchSplit (shape : List Nat) (dim : Nat) (n_parts : Nat)
  | UnexpectedShape (msg : String) (expected : List Nat) (got : List Nat)
  | Msg (msg : String)
deriving DecidableEq, Repr

/-- Result of a Rust call that may also panic (out-of-bounds index, division by
zero): `ok`/`err` are the two sides of `Result`, `panic` is an aborted call. -/
inductive Outcome (α : Type)
  | ok (a : α)
  | err (e : Error)
  | panic (msg : String)
deriving DecidableEq, Repr

/-- Association-list model of `HashMap<String, α>` lookup (first match wins). -/
def lookupA {α : Type} (m : List (String × α)) (k : String) : Option α :=
  (m.find? (fun p => p.1 == k)).map (fun p => p.2)

/-- Modelled from the spec: candle-nn's `Init` initialization policy is not under
src/; per the spec, `get` "materialize[s] a new tensor via `init_policy` (e.g.
zeros, uniform, constant) at the given shape/dtype/device". Random policies are
out of scope; zeros and constants cover the deterministic ones. -/
inductive Init
  | Zeros
  | Const (value : Nat)
deriving DecidableEq, Repr

/-- Modelled from the spec: `Init::var` materializes a new `Var` holding a tensor
of the given shape, dtype and device filled per the policy. -/
def Init.var (init : Init) (shape : List Nat) (dtype : DType) (device : Device) :
    Except Error Var :=
  match init with
  | .Zeros => .ok ⟨⟨shape, dtype, device, List.replicate shape.prod 0⟩⟩
  | .Const v => .ok ⟨⟨shape, dtype, device, List.replicate shape.prod v⟩⟩

/-- Embeds `VarMap::get` (var_builder.rs lines 62-83): under the store's lock,
an existing entry is shape-checked and returned, a missing entry is materialized
via the init policy and inserted. The updated map is returned alongside the
result; on every failure path the map is returned unchanged. -/
def VarMap.get (m : List (String × Var)) (shape : List Nat) (path : String)
    (init : Init) (dtype : DType) (device : Device) :
    Except Error Tensor × List (String × Var) :=
  match lookupA m path with
  | some v =>
    if shape ≠ v.tensor.shape then
      (.error (.Msg ("shape mismatch on " ++ path)), m)
    else
      (.ok v.as_tensor, m)
  | none =>
    match Init.var init shape dtype device with
    | .error e => (.error e, m)
    | .ok v => (.ok v.as_tensor, (path, v) :: m)

/-- Modelled from the spec: `Var::set` is not under src/; per the spec a Variable
"supports atomic whole-value replacement that must preserve shape/dtype/device of
the original", so replacement with a mismatching tensor fails. -/
def Var.set (v : Var) (t : Tensor) : Except Error Var :=
  if t.shape = v.tensor.shape ∧ t.dtype = v.tensor.dtype ∧ t.device = v.tensor.device then
    .ok ⟨t⟩
  else
    .error (.Msg "cannot set variable")

/-- Modelled from the spec: the safetensors `Load::load` used by `VarMap::load`
is not under src/; per the spec the looked-up value is "coerce[d] to the
Variable's device" before replacing it. A serialized entry is modelled as a
`Tensor` whose device field is irrelevant until this placement. -/
def stFileLoad (t : Tensor) (device : Device) : Tensor :=
  { t with device := device }

/-- Embeds `VarMap::load` (var_builder.rs lines 42-59): iterate over the stored
entries; for each, look the name up in the serialized source, coerce to the
variable's device and set it, bailing out at the first name missing from the
source or the first failing set. Returns the result together with the map state
at return time (mutations before a bail persist). -/
def VarMap.load (m : List (String × Var)) (src : List (String × Tensor)) :
    Except Error Unit × List (String × Var) :=
  match m with
  | [] => (.ok (), [])
  | (name, v) :: rest =>
    match lookupA src name with
    | none => (.error (.Msg ("cannot find tensor for " ++ name)), (name, v) :: rest)
    | some d =>
      match v.set (stFileLoad d v.tensor.device) with
      | .error _ => (.error (.Msg ("error setting " ++ name)), (name, v) :: rest)
      | .ok v2 =>
        match VarMap.load rest src with
        | (res, rest2) => (res, (name, v2) :: rest2)

/-- Serialized tensor view inside a safetensors container: dtype, shape and the
flat row-major buffer (element-granular model of the byte buffer). The
safetensors-to-candle dtype conversion (`dtype.try_into()`) is modelled as the
identity by reusing `DType` for views. -/
structure STView where
  dtype : DType
  shape : List Nat
  data : List Nat
deriving DecidableEq, Repr

/-- Backing sources of a builder (`enum Tensors` in var_builder.rs lines 88-97).
A safetensors container is its name-to-view table; `Npz` is the archive's
name-indexed content; the VarMap variant holds the registry state. -/
inductive Tensors
  | SafeTensorWithRouting (routing : List (String × Nat))
      (safetensors : List (List (String × STView)))
  | Npz (npz : List (String × Tensor))
  | TensorMap (ts : List (String × Tensor))
  | Zeros
  | VarMap (vm : List (String × Var))
deriving DecidableEq, Repr

/-- Embeds `TensorData` (var_builder.rs lines 99-103). -/
structure TensorData where
  tensors : Tensors
  dtype : DType
  device : Device
deriving DecidableEq, Repr

/-- Embeds the routing construction of `TensorData::from_safetensors`
(var_builder.rs lines 106-122): for each container in order, insert every name
with the container's index; a later insert shadows an earlier one. Inserts are
modelled by consing onto the accumulator, so the reversed fold order makes the
last executed insert the first match. -/
def buildRouting (safetensors : List (List (String × STView))) : List (String × Nat) :=
  (safetensors.enum.foldl
    (fun acc p => p.2.foldl (fun acc2 q => (q.1, p.1) :: acc2) acc) [])

/-- Embeds `TensorData::from_safetensors`. -/
def TensorData.from_safetensors (st : List (List (String × STView)))
    (dtype : DType) (device : Device) : TensorData :=
  { tensors := .SafeTensorWithRouting (buildRouting st) st, dtype := dtype, device := device }

/-- Embeds `VarBuilder` (var_builder.rs lines 158-162): shared tensor data plus
the accumulated path prefix. -/
structure VarBuilder where
  data : TensorData
  path : List String
deriving DecidableEq, Repr

/-- Embeds `VarBuilder::path` (var_builder.rs lines 387-393): the prefix
segments and the name joined with a dot. -/
def VarBuilder.pathStr (vb : VarBuilder) (tensor_name : String) : String :=
  if vb.path.isEmpty then tensor_name
  else String.intercalate "." vb.path ++ "." ++ tensor_name

/-- Embeds `Tensor::zeros` followed by `.contiguous()` on the zeros branch of
`VarBuilder::get`: a freshly materialized all-zero tensor is already contiguous
in this model. -/
def Tensor.zeros (shape : List Nat) (dtype : DType) (device : Device) : Tensor :=
  ⟨shape, dtype, device, List.replicate shape.prod 0⟩

/-- Modelled from the spec: `NpzTensors::get` (candle-core's npy module) is not
under src/; per the spec the archive variant is a "single name-indexed container"
performing "name-indexed tensor retrieval", returning `None` for an absent name. -/
def npzGet (npz : List (String × Tensor)) (path : String) : Option Tensor :=
  lookupA npz path

/-- Modelled from the spec: the safetensors `Load::load` on a view (used by the
safetensors branch of `VarBuilder::get`) is not under src/; it materializes the
shape/dtype-tagged view as a tensor placed on the given device. -/
def STView.load (view : STView) (device : Device) : Tensor :=
  ⟨view.shape, view.dtype, device, view.data⟩

/-- Embeds `Tensor::to_dtype` as used after loading: a cast retags the element
type (scalar values are abstract in this model, so the data is unchanged). -/
def Tensor.to_dtype (t : Tensor) (dtype : DType) : Tensor :=
  { t with dtype := dtype }

/-- Lifts a `Result` into the panic-aware outcome type. -/
def Outcome.ofExcept {α : Type} : Except Error α → Outcome α
  | .ok a => .ok a
  | .error e => .err e

/-- Embeds `VarBuilder::get` (var_builder.rs lines 307-365): dispatch on the
backing variant, then check the resolved shape against the requested one. The
VarMap branch is a plain lookup under the lock (`data.get(&path)`), failing with
`CannotFindTensor` on a miss — it does not create. `safetensors[*index]` is a
panicking `Vec` index (unreachable while the routing is consistent). -/
def VarBuilder.get (vb : VarBuilder) (s : List Nat) (tensor_name : String) :
    Outcome Tensor :=
  let path := vb.pathStr tensor_name
  let tensor? : Outcome Tensor :=
    match vb.data.tensors with
    | .Zeros => .ok (Tensor.zeros s vb.data.dtype vb.data.device)
    | .TensorMap ts =>
      match lookupA ts path with
      | none => .err (.CannotFindTensor path)
      | some t => .ok t
    | .VarMap vm =>
      match lookupA vm path with
      | none => .err (.CannotFindTensor path)
      | some v => .ok v.as_tensor
    | .Npz npz =>
      match npzGet npz path with
      | none => .err (.CannotFindTensor path)
      | some t => .ok t
    | .SafeTensorWithRouting routing safetensors =>
      match lookupA routing path with
      | none => .err (.CannotFindTensor path)
      | some index =>
        match safetensors[index]? with
        | none => .panic "index out of bounds"
        | some file =>
          match lookupA file path with
          | none => .err (.Msg ("tensor not found in file " ++ path))
          | some view => .ok ((view.load vb.data.device).to_dtype vb.data.dtype)
  match tensor? with
  | .ok tensor =>
    if tensor.shape ≠ s then
      .err (.UnexpectedShape ("shape mismatch for " ++ path) s tensor.shape)
    else
      .ok tensor
  | other => other

/-- Embeds `VarBuilder::get_or_init` (var_builder.rs lines 371-385): the VarMap
variant delegates to `VarMap::get` with the builder's defaults; every other
variant falls back to `VarBuilder::get`. The second component is the resulting
backing state. -/
def VarBuilder.getOrInit (vb : VarBuilder) (s : List Nat) (tensor_name : String)
    (init : Init) : Outcome Tensor × Tensors :=
  match vb.data.tensors with
  | .VarMap vm =>
    match VarMap.get vm s (vb.pathStr tensor_name) init vb.data.dtype vb.data.device with
    | (r, vm2) => (Outcome.ofExcept r, .VarMap vm2)
  | other => (vb.get s tensor_name, other)

/-- Embeds the safetensors `view.slice(start..stop)` used by the `dim == 0`
branch of `get_sharded`: the element range covering rows `start..stop` of a
row-major buffer. The codec rejects a range exceeding the leading extent (and
slicing a rank-0 view). -/
def STView.sliceDim0 (view : STView) (start stop : Nat) : Option (List Nat) :=
  match view.shape with
  | [] => none
  | d0 :: rest =>
    if start ≤ stop ∧ stop ≤ d0 then
      some ((view.data.drop (start * rest.prod)).take ((stop - start) * rest.prod))
    else
      none

/-- Embeds the safetensors `view.slice((.., start..stop))` used by the
`dim == 1` branch of `get_sharded`: per leading row, the element sub-range for
columns `start..stop`, gathered in row order. The codec rejects a rank below 2
and a range exceeding the second extent. -/
def STView.sliceDim1 (view : STView) (start stop : Nat) : Option (List Nat) :=
  match view.shape with
  | d0 :: d1 :: rest =>
    if start ≤ stop ∧ stop ≤ d1 then
      some (((List.range d0).map (fun i =>
        (view.data.drop (i * (d1 * rest.prod) + start * rest.prod)).take
          ((stop - start) * rest.prod))).flatten)
    else
      none
  | _ => none

/-- Embeds `Tensor::from_raw_buffer`: tags the gathered buffer with dtype, shape
and device, rejecting a buffer whose length disagrees with the shape. -/
def Tensor.from_raw_buffer (raw : List Nat) (dtype : DType) (shape : List Nat)
    (device : Device) : Except Error Tensor :=
  if raw.length = shape.prod then
    .ok ⟨shape, dtype, device, raw⟩
  else
    .error (.Msg "unexpected buffer size")

/-- Embeds `VarBuilder::get_sharded` (var_builder.rs lines 246-304). Faithful to
the source's order of effects: only the safetensors variant is supported; the
routing lookup fails with `CannotFindTensor`; `shape[dim]` panics when `dim` is
out of bounds and `size % world_size` panics when `world_size = 0`; the
divisibility check precedes the dimension check, which rejects `dim` outside
`{0, 1}` with a `Msg` error; a failing codec slice is mapped to a `Msg` error;
the result is rebuilt from the gathered bytes with the view's dtype and the
shape with `dim`'s extent replaced by the block size. -/
def VarBuilder.get_sharded (vb : VarBuilder) (tensor_name : String)
    (dim rank world_size : Nat) : Outcome Tensor :=
  let path := vb.pathStr tensor_name
  match vb.data.tensors with
  | .SafeTensorWithRouting routing safetensors =>
    match lookupA routing path with
    | none => .err (.CannotFindTensor path)
    | some index =>
      match safetensors[index]? with
      | none => .panic "index out of bounds"
      | some file =>
        match lookupA file path with
        | none => .err (.Msg ("tensor not found in file " ++ path))
        | some view =>
          if hdim : dim < view.shape.length then
            let size := view.shape.get ⟨dim, hdim⟩
            if world_size = 0 then
              .panic "attempt to calculate the remainder with a divisor of zero"
            else if size % world_size ≠ 0 then
              .err (.ShapeMismatchSplit view.shape dim world_size)
            else
              let block_size := size / world_size
              let start := rank * block_size
              let stop := (rank + 1) * block_size
              let sliced? : Outcome (List Nat) :=
                if dim = 0 then
                  match view.sliceDim0 start stop with
                  | none => .err (.Msg ("Cannot slice tensor " ++ tensor_name))
                  | some raw => .ok raw
                else if dim = 1 then
                  match view.sliceDim1 start stop with
                  | none => .err (.Msg ("Cannot slice tensor " ++ tensor_name))
                  | some raw => .ok raw
                else
                  .err (.Msg "Get sharded on dimensions != 0 or 1")
              match sliced? with
              | .ok raw =>
                Outcome.ofExcept
                  (Tensor.from_raw_buffer raw view.dtype (view.shape.set dim block_size)
                    vb.data.device)
              | .err e => .err e
              | .panic msg => .panic msg
          else
            .panic "index out of bounds"
  | _ => .err (.Msg "get_sharded is only available for safetensors")

/-- Modelled from the spec: concatenation of equally-shaped tensors along
dimension 0 or 1 (the tensor engine's `cat` is an out-of-scope external
collaborator; this is the standard row-major block concatenation the spec's
reconstruction property refers to). Along dimension 0 the flat buffers are
appended; along dimension 1 each leading row of the result is the concatenation
of the corresponding rows of the operands. Returns `none` for an empty operand
list, mismatched shapes, or a dimension outside `{0, 1}`. -/
def catShards (dim : Nat) (ts : List Tensor) : Option Tensor :=
  match ts with
  | [] => none
  | t :: rest =>
    if rest.all (fun u => u.shape = t.shape ∧ u.dtype = t.dtype ∧ u.device = t.device) then
      match dim, t.shape with
      | 0, d0 :: tail =>
        some ⟨(t :: rest).length * d0 :: tail, t.dtype, t.device,
          ((t :: rest).map (fun u => u.data)).flatten⟩
      | 1, d0 :: d1 :: tail =>
        some ⟨d0 :: (t :: rest).length * d1 :: tail, t.dtype, t.device,
          ((List.range d0).map (fun i =>
            ((t :: rest).map (fun u =>
              (u.data.drop (i * (d1 * tail.prod))).take (d1 * tail.prod))).flatten)).flatten⟩
      | _, _ => none
    else
      none

section Fixtures

/-- Concrete 2-by-4 view used to exercise the sharded read path. -/
def viewA : STView := ⟨.F16, [2, 4], [1, 2, 3, 4, 5, 6, 7, 8]⟩

/-- Safetensors-backed builder over `viewA` with default dtype F32 on the cpu. -/
def vbST : VarBuilder :=
  ⟨TensorData.from_safetensors [[("w", viewA)]] .F32 .Cpu, []⟩

/-- Concrete stored tensor for the VarMap fixtures. -/
def tA : Tensor := ⟨[2], .F32, .Cpu, [5, 6]⟩

/-- One-entry registry holding `tA` under the path `w`. -/
def mapA : List (String × Var) := [("w", ⟨tA⟩)]

/-- VarMap-backed builder over `mapA`. -/
def vbVM : VarBuilder := ⟨⟨.VarMap mapA, .F32, .Cpu⟩, []⟩

/-- VarMap-backed builder over the empty registry. -/
def vbVMempty : VarBuilder := ⟨⟨.VarMap [], .F32, .Cpu⟩, []⟩

/-- Npz-backed builder holding an F64 tensor while the builder's default dtype
is F32, on the cpu while the builder's default device is cuda 0. -/
def tNpz : Tensor := ⟨[2], .F64, .Cpu, [7, 8]⟩

/-- Archive-backed builder over `tNpz`. -/
def vbNpz : VarBuilder := ⟨⟨.Npz [("w", tNpz)], .F32, .Cuda ⟨0⟩⟩, []⟩

/-- Concrete rank-3 view (shape 2 by 2 by 3) for the out-of-range dimension
cases of `get_sharded`. -/
def view3 : STView := ⟨.F32, [2, 2, 3], [0, 1, 2, 3, 4, 5, 6, 7, 8, 9, 10, 11]⟩

/-- Safetensors-backed builder over `view3`. -/
def vbST3 : VarBuilder :=
  ⟨TensorData.from_safetensors [[("w", view3)]] .F32 .Cpu, []⟩

/-- Serialized value for the load fixtures. -/
def tSrc : Tensor := ⟨[1], .F32, .Cpu, [9]⟩

/-- Registry variables for the load fixtures. -/
def vA : Var := ⟨⟨[1], .F32, .Cpu, [0]⟩⟩

/-- Second registry variable for the load fixtures. -/
def vB : Var := ⟨⟨[1], .F32, .Cpu, [1]⟩⟩

/-- Third registry variable for the load fixtures. -/
def vC : Var := ⟨⟨[1], .F32, .Cpu, [2]⟩⟩

/-- Serialized source containing only the path `a`. -/
def srcC8 : List (String × Tensor) := [("a", tSrc)]

/-- Three-entry registry whose second path is missing from `srcC8`. -/
def mapC8 : List (String × Var) := [("a", vA), ("b", vB), ("c", vC)]

end Fixtures

/-- Discriminates the routed-serialized-file backing variant. -/
def Tensors.isSafetensors : Tensors → Bool
  | .SafeTensorWithRouting _ _ => true
  | _ => false

/-- Applies the per-entry effect of a successful `VarMap::load` step: the
serialized value placed on the variable's device, or the entry unchanged when
the lookup or the replacement fails. -/
def updateEntry (src : List (String × Tensor)) (e : String × Var) : String × Var :=
  match lookupA src e.1 with
  | none => e
  | some t =>
    match e.2.set (stFileLoad t e.2.tensor.device) with
    | .error _ => e
    | .ok v2 => (e.1, v2)

/-- C9: `same_device` is the exact truth table over device kinds: Cpu/Cpu is
true, Cuda/Cuda is true iff the two physical ordinals coincide, and any
cross-kind pair is false. -/
theorem c9_same_device_truth_table :
    Device.same_device .Cpu .Cpu = true ∧
    (∀ a b : CudaDevice,
      Device.same_device (.Cuda a) (.Cuda b) = true ↔ a.ordinal = b.ordinal) ∧
    (∀ a : CudaDevice,
      Device.same_device .Cpu (.Cuda a) = false ∧
      Device.same_device (.Cuda a) .Cpu = false) := by
  refine ⟨rfl, fun a b => ?_, fun a => ⟨rfl, rfl⟩⟩
  simp [Device.same_device, CudaDevice.same_device]

/-- C7: fetching an existing VariableStore entry with a different declared shape
fails with the shape-mismatch error and leaves the mapping unchanged; with the
matching shape it returns the existing Variable's tensor, again without touching
the mapping. -/
theorem c7_varmap_get_existing (m : List (String × Var)) (path : String) (v : Var)
    (shape : List Nat) (init : Init) (dtype : DType) (device : Device)
    (hfound : lookupA m path = some v) :
    (shape ≠ v.tensor.shape →
      VarMap.get m shape path init dtype device =
        (.error (.Msg ("shape mismatch on " ++ path)), m)) ∧
    (shape = v.tensor.shape →
      VarMap.get m shape path init dtype device = (.ok v.tensor, m)) := by
  constructor
  · intro hne
    simp [VarMap.get, hfound, hne]
  · intro heq
    simp [VarMap.get, hfound, heq, Var.as_tensor]

/-- Witness for C7 at the one-entry registry `mapA`. -/
theorem c7_varmap_get_existing_witness :
    VarMap.get mapA [3] "w" .Zeros .F32 .Cpu =
      (.error (.Msg ("shape mismatch on " ++ "w")), mapA) ∧
    VarMap.get mapA [2] "w" .Zeros .F32 .Cpu = (.ok tA, mapA) :=
  ⟨(c7_varmap_get_existing mapA "w" ⟨tA⟩ [3] .Zeros .F32 .Cpu rfl).1 (by decide),
   (c7_varmap_get_existing mapA "w" ⟨tA⟩ [2] .Zeros .F32 .Cpu rfl).2 rfl⟩

/-- C10: on a hit with the matching shape, `VarMap::get` is independent of the
init, dtype and device arguments: it returns the stored Variable's tensor, whose
dtype and device are the original ones whatever the call supplied. -/
theorem c10_varmap_get_ignores_args (m : List (String × Var)) (path : String)
    (v : Var) (hfound : lookupA m path = some v) (init : Init) (dtype : DType)
    (device : Device) :
    VarMap.get m v.tensor.shape path init dtype device = (.ok v.tensor, m) := by
  simp [VarMap.get, hfound, Var.as_tensor]

/-- Witness for C10: the supplied dtype F64 and device cuda 0 differ from the
stored tensor's F32 and cpu, and the stored tensor comes back regardless. -/
theorem c10_varmap_get_ignores_args_witness :
    VarMap.get mapA tA.shape "w" (.Const 9) .F64 (.Cuda ⟨0⟩) = (.ok tA, mapA) ∧
    tA.dtype ≠ .F64 ∧ tA.device ≠ .Cuda ⟨0⟩ :=
  ⟨c10_varmap_get_ignores_args mapA "w" ⟨tA⟩ rfl (.Const 9) .F64 (.Cuda ⟨0⟩),
   by decide, by decide⟩

/-- C6: `get_sharded` on any backing variant other than the routed serialized
file fails with the unsupported-operation error, independent of the name,
dimension, rank and world size. -/
theorem c6_get_sharded_unsupported_backing (vb : VarBuilder) (tensor_name : String)
    (dim rank world_size : Nat) (h : vb.data.tensors.isSafetensors = false) :
    vb.get_sharded tensor_name dim rank world_size =
      .err (.Msg "get_sharded is only available for safetensors") := by
  cases htens : vb.data.tensors with
  | SafeTensorWithRouting routing sts => simp [Tensors.isSafetensors, htens] at h
  | Npz npz => simp [VarBuilder.get_sharded, htens]
  | TensorMap ts => simp [VarBuilder.get_sharded, htens]
  | Zeros => simp [VarBuilder.get_sharded, htens]
  | VarMap vm => simp [VarBuilder.get_sharded, htens]

/-- Witness for C6 at the VarMap-backed builder `vbVM`. -/
theorem c6_get_sharded_unsupported_backing_witness :
    vbVM.get_sharded "w" 0 0 2 =
      .err (.Msg "get_sharded is only available for safetensors") :=
  c6_get_sharded_unsupported_backing vbVM "w" 0 0 2 rfl

/-- Counterexample to C1: on a VarMap-backed builder over the empty registry,
`VarBuilder::get` fails with the not-found error instead of creating the
variable, while the store's own `get` at the same arguments would have created
it. -/
theorem c1_counterexample :
    vbVMempty.get [2] "w" = .err (.CannotFindTensor "w") ∧
    (VarMap.get [] [2] "w" .Zeros .F32 .Cpu).1 =
      .ok ⟨[2], .F32, .Cpu, [0, 0]⟩ :=
  ⟨by decide, rfl⟩

/-- C1 amended: on a VarMap-backed builder, `VarBuilder::get` is a plain lookup
that fails with `CannotFindTensor` when the full path is absent; the delegation
to the store's create-or-fetch `get` (creation permitted) is performed by
`get_or_init`, not by `get`. -/
theorem c1_varmap_get_is_lookup_only (vb : VarBuilder) (vm : List (String × Var))
    (s : List Nat) (tensor_name : String) (init : Init)
    (hvm : vb.data.tensors = .VarMap vm) :
    (lookupA vm (vb.pathStr tensor_name) = none →
      vb.get s tensor_name = .err (.CannotFindTensor (vb.pathStr tensor_name))) ∧
    vb.getOrInit s tensor_name init =
      (Outcome.ofExcept
        (VarMap.get vm s (vb.pathStr tensor_name) init vb.data.dtype vb.data.device).1,
       .VarMap
        (VarMap.get vm s (vb.pathStr tensor_name) init vb.data.dtype vb.data.device).2) := by
  constructor
  · intro hmiss
    simp [VarBuilder.get, hvm, hmiss]
  · simp [VarBuilder.getOrInit, hvm]

/-- Witness for C1 at the empty registry: `get` misses and `get_or_init`
delegates to the store. -/
theorem c1_varmap_get_is_lookup_only_witness :
    vbVMempty.get [2] "w" = .err (.CannotFindTensor (vbVMempty.pathStr "w")) ∧
    vbVMempty.getOrInit [2] "w" .Zeros =
      (Outcome.ofExcept
        (VarMap.get [] [2] (vbVMempty.pathStr "w") .Zeros vbVMempty.data.dtype
          vbVMempty.data.device).1,
       .VarMap
        (VarMap.get [] [2] (vbVMempty.pathStr "w") .Zeros vbVMempty.data.dtype
          vbVMempty.data.device).2) :=
  ⟨(c1_varmap_get_is_lookup_only vbVMempty [] [2] "w" .Zeros rfl).1 rfl,
   (c1_varmap_get_is_lookup_only vbVMempty [] [2] "w" .Zeros rfl).2⟩

/-- Counterexample to C2: the archive (Npz) branch of `VarBuilder::get` returns
the stored tensor unchanged — here with dtype F64 and device cpu although the
builder's defaults are F32 and cuda 0 — so the claimed cast and placement do not
happen for archive sources. -/
theorem c2_counterexample :
    vbNpz.get [2] "w" = .ok tNpz ∧
    tNpz.dtype ≠ vbNpz.data.dtype ∧
    tNpz.device ≠ vbNpz.data.device := by decide

/-- C2 amended: the safetensors branch of `VarBuilder::get` returns the view
cast to the builder's default dtype and placed on the builder's default device;
the archive (Npz) branch returns the codec's tensor as is, with no cast and no
placement. -/
theorem c2_safetensors_casts_npz_does_not (vb : VarBuilder) (tensor_name : String) :
    (∀ (routing : List (String × Nat)) (sts : List (List (String × STView)))
        (index : Nat) (file : List (String × STView)) (view : STView),
      vb.data.tensors = .SafeTensorWithRouting routing sts →
      lookupA routing (vb.pathStr tensor_name) = some index →
      sts[index]? = some file →
      lookupA file (vb.pathStr tensor_name) = some view →
      vb.get view.shape tensor_name =
        .ok ⟨view.shape, vb.data.dtype, vb.data.device, view.data⟩) ∧
    (∀ (npz : List (String × Tensor)) (t : Tensor),
      vb.data.tensors = .Npz npz →
      lookupA npz (vb.pathStr tensor_name) = some t →
      vb.get t.shape tensor_name = .ok t) := by
  constructor
  · intro routing sts index file view hsrc hroute hfile hview
    simp [VarBuilder.get, hsrc, hroute, hfile, hview, STView.load, Tensor.to_dtype]
  · intro npz t hsrc hlook
    simp [VarBuilder.get, hsrc, npzGet, hlook]

/-- Witness for C2 at the fixtures `vbST` (safetensors, cast applied) and
`vbNpz` (archive, tensor returned unchanged). -/
theorem c2_safetensors_casts_npz_does_not_witness :
    vbST.get viewA.shape "w" =
      .ok ⟨viewA.shape, vbST.data.dtype, vbST.data.device, viewA.data⟩ ∧
    vbNpz.get tNpz.shape "w" = .ok tNpz :=
  ⟨(c2_safetensors_casts_npz_does_not vbST "w").1 (buildRouting [[("w", viewA)]])
      [[("w", viewA)]] 0 [("w", viewA)] viewA rfl rfl rfl rfl,
   (c2_safetensors_casts_npz_does_not vbNpz "w").2 [("w", tNpz)] tNpz rfl rfl⟩

section ListLemmas

/-- Splitting a list of length `n * k` into its `n` consecutive chunks of
length `k` and flattening them back yields the original list. -/
theorem flatten_chunks {α : Type} :
    ∀ (n : Nat) (l : List α) (k : Nat), l.length = n * k →
      ((List.range n).map (fun i => (l.drop (i * k)).take k)).flatten = l
  | 0, l, k, h => by
    have hl : l = [] := List.eq_nil_of_length_eq_zero (by simpa using h)
    simp [hl]
  | n + 1, l, k, h => by
    rw [List.range_succ_eq_map, List.map_cons, List.map_map, List.flatten_cons]
    have htail : (List.range n).map ((fun i => (l.drop (i * k)).take k) ∘ Nat.succ) =
        (List.range n).map (fun i => ((l.drop k).drop (i * k)).take k) := by
      apply List.map_congr_left
      intro i _
      rw [Function.comp_apply, List.drop_drop, Nat.succ_mul, Nat.add_comm (i * k) k]
    have hlen : (l.drop k).length = n * k := by
      rw [List.length_drop, h, Nat.succ_mul]
      omega
    rw [htail, flatten_chunks n (l.drop k) k hlen, Nat.zero_mul, List.drop_zero,
      List.take_append_drop]

/-- Extracting the `i`-th length-`k` chunk of a flattening of length-`k` pieces
returns the `i`-th piece. -/
theorem chunk_of_flatten {α : Type} :
    ∀ (ps : List (List α)) (k i : Nat), (∀ p ∈ ps, p.length = k) →
      ∀ (hi : i < ps.length), (ps.flatten.drop (i * k)).take k = ps.get ⟨i, hi⟩
  | [], _, i, _, hi => by simp at hi
  | p :: ps, k, 0, hk, hi => by
    have hp : p.length = k := hk p (List.mem_cons_self p ps)
    simp only [List.flatten_cons, Nat.zero_mul, List.drop_zero, List.get]
    rw [← hp, List.take_left]
  | p :: ps, k, i + 1, hk, hi => by
    have hp : p.length = k := hk p (List.mem_cons_self p ps)
    simp only [List.flatten_cons]
    rw [Nat.succ_mul, Nat.add_comm (i * k) k,
      show k + i * k = p.length + i * k by rw [hp], List.drop_append]
    rw [chunk_of_flatten ps k i (fun q hq => hk q (List.mem_cons_of_mem p hq))
      (by simpa using hi)]
    rfl

/-- Restricting a window before chunking it is invisible while the chunk stays
inside the window. -/
theorem take_drop_of_take {α : Type} (l : List α) (a m b k : Nat) (h : b + k ≤ m) :
    (((l.drop a).take m).drop b).take k = (l.drop (a + b)).take k := by
  rw [List.drop_take, List.take_take, Nat.min_eq_left (by omega), List.drop_drop]

/-- Length of a chunk fully inside the list. -/
theorem length_drop_take {α : Type} (l : List α) (a k : Nat) (h : a + k ≤ l.length) :
    ((l.drop a).take k).length = k := by
  rw [List.length_take, List.length_drop]
  omega

/-- Length of a flattening of constant-length pieces. -/
theorem length_flatten_const {α β : Type} (f : β → List α) (k : Nat) :
    ∀ (xs : List β), (∀ x ∈ xs, (f x).length = k) →
      ((xs.map f).flatten).length = xs.length * k
  | [], _ => by simp
  | x :: xs, h => by
    rw [List.map_cons, List.flatten_cons, List.length_append, h x (List.mem_cons_self x xs),
      length_flatten_const f k xs (fun y hy => h y (List.mem_cons_of_mem x hy)),
      List.length_cons, Nat.succ_mul, Nat.add_comm]

end ListLemmas

/-- Evaluates the dim-0 branch of `get_sharded` on a resolvable safetensors
view: the result carries the view's dtype, the shape with the leading extent
replaced by the block size, and the contiguous block of rows
`rank * block_size ..= rank * block_size + block_size` of the stored buffer. -/
theorem get_sharded_dim0_eval (vb : VarBuilder) (tensor_name : String)
    (routing : List (String × Nat)) (sts : List (List (String × STView)))
    (index : Nat) (file : List (String × STView)) (view : STView)
    (rank world_size d0 : Nat) (rest : List Nat)
    (hsrc : vb.data.tensors = .SafeTensorWithRouting routing sts)
    (hroute : lookupA routing (vb.pathStr tensor_name) = some index)
    (hfile : sts[index]? = some file)
    (hview : lookupA file (vb.pathStr tensor_name) = some view)
    (hshape : view.shape = d0 :: rest)
    (hwf : view.data.length = view.shape.prod)
    (hdvd : world_size ∣ d0) (hrank : rank < world_size) :
    vb.get_sharded tensor_name 0 rank world_size =
      .ok ⟨d0 / world_size :: rest, view.dtype, vb.data.device,
        (view.data.drop (rank * (d0 / world_size * rest.prod))).take
          (d0 / world_size * rest.prod)⟩ := by
  obtain ⟨vdtype, vshape, vdata⟩ := view
  dsimp only at hshape hwf ⊢
  subst hshape
  have hws : ¬ world_size = 0 := by omega
  have hmul : world_size * (d0 / world_size) = d0 := Nat.mul_div_cancel' hdvd
  have hmod : d0 % world_size = 0 := by
    rw [← hmul]
    exact Nat.mul_mod_right _ _
  have hstop : (rank + 1) * (d0 / world_size) ≤ d0 := by
    calc (rank + 1) * (d0 / world_size) ≤ world_size * (d0 / world_size) :=
          Nat.mul_le_mul_right _ hrank
      _ = d0 := hmul
  have hsub : (rank + 1) * (d0 / world_size) - rank * (d0 / world_size) = d0 / world_size := by
    rw [Nat.succ_mul]
    exact Nat.add_sub_cancel_left _ _
  simp only [VarBuilder.get_sharded, hsrc, hroute, hfile, hview, STView.sliceDim0,
    Tensor.from_raw_buffer, Outcome.ofExcept]
  rw [dif_pos (show 0 < (d0 :: rest).length by simp)]
  rw [if_neg hws]
  dsimp only [List.get]
  rw [if_neg (show ¬ (d0 % world_size ≠ 0) by simp [hmod])]
  rw [if_pos trivial]
  rw [if_pos (show rank * (d0 / world_size) ≤ (rank + 1) * (d0 / world_size) ∧
        (rank + 1) * (d0 / world_size) ≤ d0 from
      ⟨Nat.mul_le_mul_right _ (Nat.le_succ rank), hstop⟩)]
  rw [hsub]
  rw [Nat.mul_assoc rank (d0 / world_size) rest.prod]
  have hbound : rank * (d0 / world_size * rest.prod) + d0 / world_size * rest.prod ≤
      vdata.length := by
    rw [hwf, List.prod_cons, ← Nat.succ_mul, ← Nat.mul_assoc]
    exact Nat.mul_le_mul_right _ hstop
  have hlen : ((vdata.drop (rank * (d0 / world_size * rest.prod))).take
      (d0 / world_size * rest.prod)).length = d0 / world_size * rest.prod :=
    length_drop_take _ _ _ hbound
  simp [hlen]

/-- Evaluates the dim-1 branch of `get_sharded` on a resolvable safetensors
view: the result carries the view's dtype, the shape with the second extent
replaced by the block size, and per leading row the column block
`rank * block_size ..= rank * block_size + block_size`, gathered in row order. -/
theorem get_sharded_dim1_eval (vb : VarBuilder) (tensor_name : String)
    (routing : List (String × Nat)) (sts : List (List (String × STView)))
    (index : Nat) (file : List (String × STView)) (view : STView)
    (rank world_size d0 d1 : Nat) (rest : List Nat)
    (hsrc : vb.data.tensors = .SafeTensorWithRouting routing sts)
    (hroute : lookupA routing (vb.pathStr tensor_name) = some index)
    (hfile : sts[index]? = some file)
    (hview : lookupA file (vb.pathStr tensor_name) = some view)
    (hshape : view.shape = d0 :: d1 :: rest)
    (hwf : view.data.length = view.shape.prod)
    (hdvd : world_size ∣ d1) (hrank : rank < world_size) :
    vb.get_sharded tensor_name 1 rank world_size =
      .ok ⟨d0 :: d1 / world_size :: rest, view.dtype, vb.data.device,
        ((List.range d0).map (fun i =>
          (view.data.drop (i * (d1 * rest.prod) + rank * (d1 / world_size * rest.prod))).take
            (d1 / world_size * rest.prod))).flatten⟩ := by
  obtain ⟨vdtype, vshape, vdata⟩ := view
  dsimp only at hshape hwf ⊢
  subst hshape
  have hws : ¬ world_size = 0 := by omega
  have hmul : world_size * (d1 / world_size) = d1 := Nat.mul_div_cancel' hdvd
  have hmod : d1 % world_size = 0 := by
    rw [← hmul]
    exact Nat.mul_mod_right _ _
  have hstop : (rank + 1) * (d1 / world_size) ≤ d1 := by
    calc (rank + 1) * (d1 / world_size) ≤ world_size * (d1 / world_size) :=
          Nat.mul_le_mul_right _ hrank
      _ = d1 := hmul
  have hsub : (rank + 1) * (d1 / world_size) - rank * (d1 / world_size) = d1 / world_size := by
    rw [Nat.succ_mul]
    exact Nat.add_sub_cancel_left _ _
  have htot : vdata.length = d0 * (d1 * rest.prod) := by
    rw [hwf, List.prod_cons, List.prod_cons]
  have hwsk : world_size * (d1 / world_size * rest.prod) = d1 * rest.prod := by
    rw [← Nat.mul_assoc, hmul]
  have hblockle : rank * (d1 / world_size * rest.prod) + d1 / world_size * rest.prod ≤
      d1 * rest.prod := by
    rw [← Nat.succ_mul, ← hwsk]
    exact Nat.mul_le_mul_right _ hrank
  have hbound : ∀ i, i < d0 →
      i * (d1 * rest.prod) + rank * (d1 / world_size * rest.prod) +
        d1 / world_size * rest.prod ≤ vdata.length := by
    intro i hi
    rw [htot]
    calc i * (d1 * rest.prod) + rank * (d1 / world_size * rest.prod) +
          d1 / world_size * rest.prod
        = i * (d1 * rest.prod) +
            (rank * (d1 / world_size * rest.prod) + d1 / world_size * rest.prod) := by
          rw [Nat.add_assoc]
      _ ≤ i * (d1 * rest.prod) + d1 * rest.prod := Nat.add_le_add_left hblockle _
      _ = (i + 1) * (d1 * rest.prod) := (Nat.succ_mul i (d1 * rest.prod)).symm
      _ ≤ d0 * (d1 * rest.prod) := Nat.mul_le_mul_right _ hi
  simp only [VarBuilder.get_sharded, hsrc, hroute, hfile, hview, STView.sliceDim1,
    Tensor.from_raw_buffer, Outcome.ofExcept]
  rw [dif_pos (show 1 < (d0 :: d1 :: rest).length by
    rw [List.length_cons, List.length_cons]
    omega)]
  rw [if_neg hws]
  dsimp only [List.get]
  rw [if_neg (show ¬ (d1 % world_size ≠ 0) by simp [hmod])]
  rw [if_pos (show rank * (d1 / world_size) ≤ (rank + 1) * (d1 / world_size) ∧
        (rank + 1) * (d1 / world_size) ≤ d1 from
      ⟨Nat.mul_le_mul_right _ (Nat.le_succ rank), hstop⟩)]
  rw [hsub]
  rw [Nat.mul_assoc rank (d1 / world_size) rest.prod]
  have hraw : (((List.range d0).map (fun i =>
      (vdata.drop (i * (d1 * rest.prod) + rank * (d1 / world_size * rest.prod))).take
        (d1 / world_size * rest.prod))).flatten).length =
      d0 * (d1 / world_size * rest.prod) := by
    rw [length_flatten_const _ (d1 / world_size * rest.prod) _
      (fun i hi => length_drop_take _ _ _ (hbound i (List.mem_range.mp hi))),
      List.length_range]
  simp [hraw]

/-- Element of a range-map at an in-range index. -/
theorem get_map_range {α : Type} (f : Nat → α) (n i : Nat)
    (hi : i < ((List.range n).map f).length) :
    ((List.range n).map f).get ⟨i, hi⟩ = f i := by
  simp [List.get_eq_getElem, List.getElem_map, List.getElem_range]

/-- Concatenation along dimension 0 of `ws` equally-shaped shards given as a
range-map: the leading extent is scaled by `ws` and the flat buffers are
appended in rank order. -/
theorem catShards0_map_range (ws : Nat) (hws : 0 < ws) (b : Nat) (tail : List Nat)
    (dt : DType) (dev : Device) (g : Nat → List Nat) :
    catShards 0 ((List.range ws).map (fun r => ⟨b :: tail, dt, dev, g r⟩)) =
      some ⟨ws * b :: tail, dt, dev, ((List.range ws).map g).flatten⟩ := by
  obtain ⟨w, rfl⟩ : ∃ w, ws = w + 1 := ⟨ws - 1, by omega⟩
  rw [List.range_succ_eq_map, List.map_cons]
  simp only [catShards]
  split
  next =>
    simp only [List.length_cons, List.length_map, List.length_range, List.map_map,
      List.map_cons]
    rfl
  next hall =>
    exfalso
    apply hall
    rw [List.all_eq_true]
    intro u hu
    rw [List.map_map, List.mem_map] at hu
    obtain ⟨r, _, rfl⟩ := hu
    simp

/-- Concatenation along dimension 1 of `ws` equally-shaped shards given as a
range-map: the second extent is scaled by `ws` and each leading row of the
result is the concatenation of the shards' corresponding rows. -/
theorem catShards1_map_range (ws : Nat) (hws : 0 < ws) (d0 b : Nat) (tail : List Nat)
    (dt : DType) (dev : Device) (g : Nat → List Nat) :
    catShards 1 ((List.range ws).map (fun r => ⟨d0 :: b :: tail, dt, dev, g r⟩)) =
      some ⟨d0 :: ws * b :: tail, dt, dev,
        ((List.range d0).map (fun i =>
          ((List.range ws).map (fun r =>
            ((g r).drop (i * (b * tail.prod))).take (b * tail.prod))).flatten)).flatten⟩ := by
  obtain ⟨w, rfl⟩ : ∃ w, ws = w + 1 := ⟨ws - 1, by omega⟩
  rw [List.range_succ_eq_map, List.map_cons]
  simp only [catShards]
  split
  next =>
    simp only [List.length_cons, List.length_map, List.length_range, List.map_map,
      List.map_cons]
    rfl
  next hall =>
    exfalso
    apply hall
    rw [List.all_eq_true]
    intro u hu
    rw [List.map_map, List.mem_map] at hu
    obtain ⟨r, _, rfl⟩ := hu
    simp

/-- C4: a successful sharded read at `dim` 0 or 1 computes
`block_size = size / world_size`, takes exactly the block
`rank * block_size ..= rank * block_size + block_size` along `dim`, and returns
a tensor tagged with the stored view's dtype and the original shape with
`dim`'s extent replaced by `block_size`. -/
theorem c4_sharded_block (vb : VarBuilder) (tensor_name : String)
    (routing : List (String × Nat)) (sts : List (List (String × STView)))
    (index : Nat) (file : List (String × STView)) (view : STView)
    (rank world_size : Nat)
    (hsrc : vb.data.tensors = .SafeTensorWithRouting routing sts)
    (hroute : lookupA routing (vb.pathStr tensor_name) = some index)
    (hfile : sts[index]? = some file)
    (hview : lookupA file (vb.pathStr tensor_name) = some view)
    (hwf : view.data.length = view.shape.prod)
    (hrank : rank < world_size) :
    (∀ d0 rest, view.shape = d0 :: rest → world_size ∣ d0 →
      vb.get_sharded tensor_name 0 rank world_size =
        .ok ⟨d0 / world_size :: rest, view.dtype, vb.data.device,
          (view.data.drop (rank * (d0 / world_size * rest.prod))).take
            (d0 / world_size * rest.prod)⟩) ∧
    (∀ d0 d1 rest, view.shape = d0 :: d1 :: rest → world_size ∣ d1 →
      vb.get_sharded tensor_name 1 rank world_size =
        .ok ⟨d0 :: d1 / world_size :: rest, view.dtype, vb.data.device,
          ((List.range d0).map (fun i =>
            (view.data.drop (i * (d1 * rest.prod) +
              rank * (d1 / world_size * rest.prod))).take
              (d1 / world_size * rest.prod))).flatten⟩) :=
  ⟨fun d0 rest hshape hdvd =>
    get_sharded_dim0_eval vb tensor_name routing sts index file view rank world_size
      d0 rest hsrc hroute hfile hview hshape hwf hdvd hrank,
   fun d0 d1 rest hshape hdvd =>
    get_sharded_dim1_eval vb tensor_name routing sts index file view rank world_size
      d0 d1 rest hsrc hroute hfile hview hshape hwf hdvd hrank⟩

/-- Witness for C4 at `vbST` (a 2 by 4 view, 2 ranks): rank 1 of the dim-0
split and rank 1 of the dim-1 split. -/
theorem c4_sharded_block_witness :
    vbST.get_sharded "w" 0 1 2 =
      .ok ⟨2 / 2 :: [4], viewA.dtype, vbST.data.device,
        (viewA.data.drop (1 * (2 / 2 * List.prod [4]))).take (2 / 2 * List.prod [4])⟩ ∧
    vbST.get_sharded "w" 1 1 2 =
      .ok ⟨2 :: 4 / 2 :: [], viewA.dtype, vbST.data.device,
        ((List.range 2).map (fun i =>
          (viewA.data.drop (i * (4 * List.prod []) + 1 * (4 / 2 * List.prod []))).take
            (4 / 2 * List.prod []))).flatten⟩ :=
  ⟨(c4_sharded_block vbST "w" (buildRouting [[("w", viewA)]]) [[("w", viewA)]] 0
      [("w", viewA)] viewA 1 2 rfl rfl rfl rfl rfl (by decide)).1 2 [4] rfl (by decide),
   (c4_sharded_block vbST "w" (buildRouting [[("w", viewA)]]) [[("w", viewA)]] 0
      [("w", viewA)] viewA 1 2 rfl rfl rfl rfl rfl (by decide)).2 2 4 [] rfl (by decide)⟩

/-- Counterexample to C5: with `dim = 2` on a rank-2 stored tensor the code
panics on the out-of-bounds `shape[dim]` index instead of returning the
unsupported-dimension error, and with `dim = 2` on a rank-3 tensor whose third
extent is not divisible by `world_size` the divisibility error fires before the
dimension check. -/
theorem c5_counterexample :
    vbST.get_sharded "w" 2 0 1 = .panic "index out of bounds" ∧
    vbST3.get_sharded "w" 2 0 2 = .err (.ShapeMismatchSplit [2, 2, 3] 2 2) := by
  constructor
  · rfl
  · rfl

/-- C5 amended: `dim` outside `{0, 1}` fails with the unsupported-dimension
error only once the earlier steps pass: the name resolves, `dim` is within the
stored rank (otherwise the indexing panics), `world_size` is nonzero and
divides the extent along `dim` (otherwise the divisibility error fires
first). -/
theorem c5_unsupported_dim (vb : VarBuilder) (tensor_name : String)
    (routing : List (String × Nat)) (sts : List (List (String × STView)))
    (index : Nat) (file : List (String × STView)) (view : STView)
    (dim rank world_size : Nat)
    (hsrc : vb.data.tensors = .SafeTensorWithRouting routing sts)
    (hroute : lookupA routing (vb.pathStr tensor_name) = some index)
    (hfile : sts[index]? = some file)
    (hview : lookupA file (vb.pathStr tensor_name) = some view)
    (hdim : dim < view.shape.length) (h0 : dim ≠ 0) (h1 : dim ≠ 1)
    (hws : world_size ≠ 0)
    (hmod : view.shape[dim] % world_size = 0) :
    vb.get_sharded tensor_name dim rank world_size =
      .err (.Msg "Get sharded on dimensions != 0 or 1") := by
  simp only [VarBuilder.get_sharded, hsrc, hroute, hfile, hview]
  rw [dif_pos hdim]
  rw [if_neg hws]
  rw [if_neg (show ¬ (view.shape.get ⟨dim, hdim⟩ % world_size ≠ 0) by simp [hmod])]
  rw [if_neg h0, if_neg h1]

/-- Witness for C5 at `vbST3`: `dim = 2` is within the rank-3 shape and the
extent 3 is divisible by `world_size = 3`, so the unsupported-dimension error
is returned. -/
theorem c5_unsupported_dim_witness :
    vbST3.get_sharded "w" 2 0 3 =
      .err (.Msg "Get sharded on dimensions != 0 or 1") :=
  c5_unsupported_dim vbST3 "w" (buildRouting [[("w", view3)]]) [[("w", view3)]] 0
    [("w", view3)] view3 2 0 3 rfl rfl rfl rfl (by decide) (by decide) (by decide)
    (by decide) (by decide)

/-- C3: for a stored tensor whose extent along `dim` (0 or 1) is divisible by
`world_size`, the shards returned by `get_sharded` for ranks `0 .. world_size`
all succeed, and concatenating them in rank order along `dim` reconstructs the
stored tensor exactly: same shape, same dtype, and the original buffer. -/
theorem c3_sharded_concat_reconstructs (vb : VarBuilder) (tensor_name : String)
    (routing : List (String × Nat)) (sts : List (List (String × STView)))
    (index : Nat) (file : List (String × STView)) (view : STView) (world_size : Nat)
    (hsrc : vb.data.tensors = .SafeTensorWithRouting routing sts)
    (hroute : lookupA routing (vb.pathStr tensor_name) = some index)
    (hfile : sts[index]? = some file)
    (hview : lookupA file (vb.pathStr tensor_name) = some view)
    (hwf : view.data.length = view.shape.prod)
    (hws : 0 < world_size) :
    (∀ d0 rest, view.shape = d0 :: rest → world_size ∣ d0 →
      ∃ shards : List Tensor,
        (List.range world_size).map
            (fun r => vb.get_sharded tensor_name 0 r world_size) =
          shards.map Outcome.ok ∧
        catShards 0 shards =
          some ⟨view.shape, view.dtype, vb.data.device, view.data⟩) ∧
    (∀ d0 d1 rest, view.shape = d0 :: d1 :: rest → world_size ∣ d1 →
      ∃ shards : List Tensor,
        (List.range world_size).map
            (fun r => vb.get_sharded tensor_name 1 r world_size) =
          shards.map Outcome.ok ∧
        catShards 1 shards =
          some ⟨view.shape, view.dtype, vb.data.device, view.data⟩) := by
  constructor
  · intro d0 rest hshape hdvd
    refine ⟨(List.range world_size).map (fun r =>
      ⟨d0 / world_size :: rest, view.dtype, vb.data.device,
        (view.data.drop (r * (d0 / world_size * rest.prod))).take
          (d0 / world_size * rest.prod)⟩), ?_, ?_⟩
    · rw [List.map_map]
      apply List.map_congr_left
      intro r hr
      exact get_sharded_dim0_eval vb tensor_name routing sts index file view r
        world_size d0 rest hsrc hroute hfile hview hshape hwf hdvd
        (List.mem_range.mp hr)
    · rw [catShards0_map_range world_size hws (d0 / world_size) rest view.dtype
        vb.data.device _]
      have hlen : view.data.length = world_size * (d0 / world_size * rest.prod) := by
        rw [hwf, hshape, List.prod_cons, ← Nat.mul_assoc, Nat.mul_div_cancel' hdvd]
      rw [flatten_chunks world_size view.data (d0 / world_size * rest.prod) hlen]
      rw [Nat.mul_div_cancel' hdvd, hshape]
  · intro d0 d1 rest hshape hdvd
    have hmul : world_size * (d1 / world_size) = d1 := Nat.mul_div_cancel' hdvd
    have hrs : world_size * (d1 / world_size * rest.prod) = d1 * rest.prod := by
      rw [← Nat.mul_assoc, hmul]
    have htot : view.data.length = d0 * (d1 * rest.prod) := by
      rw [hwf, hshape, List.prod_cons, List.prod_cons]
    have hrowbound : ∀ i, i < d0 →
        i * (d1 * rest.prod) + d1 * rest.prod ≤ view.data.length := by
      intro i hi
      rw [htot, ← Nat.succ_mul]
      exact Nat.mul_le_mul_right _ hi
    have hpiecebound : ∀ i r, i < d0 → r < world_size →
        i * (d1 * rest.prod) + r * (d1 / world_size * rest.prod) +
          d1 / world_size * rest.prod ≤ view.data.length := by
      intro i r hi hr
      have hblock : r * (d1 / world_size * rest.prod) + d1 / world_size * rest.prod ≤
          d1 * rest.prod := by
        rw [← Nat.succ_mul, ← hrs]
        exact Nat.mul_le_mul_right _ hr
      calc i * (d1 * rest.prod) + r * (d1 / world_size * rest.prod) +
            d1 / world_size * rest.prod
          = i * (d1 * rest.prod) +
              (r * (d1 / world_size * rest.prod) + d1 / world_size * rest.prod) := by
            rw [Nat.add_assoc]
        _ ≤ i * (d1 * rest.prod) + d1 * rest.prod := Nat.add_le_add_left hblock _
        _ ≤ view.data.length := hrowbound i hi
    refine ⟨(List.range world_size).map (fun r =>
      ⟨d0 :: d1 / world_size :: rest, view.dtype, vb.data.device,
        ((List.range d0).map (fun i =>
          (view.data.drop (i * (d1 * rest.prod) +
            r * (d1 / world_size * rest.prod))).take
            (d1 / world_size * rest.prod))).flatten⟩), ?_, ?_⟩
    · rw [List.map_map]
      apply List.map_congr_left
      intro r hr
      exact get_sharded_dim1_eval vb tensor_name routing sts index file view r
        world_size d0 d1 rest hsrc hroute hfile hview hshape hwf hdvd
        (List.mem_range.mp hr)
    · rw [catShards1_map_range world_size hws d0 (d1 / world_size) rest view.dtype
        vb.data.device _]
      have hdata : ((List.range d0).map (fun i =>
          ((List.range world_size).map (fun r =>
            ((((List.range d0).map (fun j =>
              (view.data.drop (j * (d1 * rest.prod) +
                r * (d1 / world_size * rest.prod))).take
                (d1 / world_size * rest.prod))).flatten).drop
              (i * (d1 / world_size * rest.prod))).take
              (d1 / world_size * rest.prod))).flatten)).flatten = view.data := by
        have hrow : ∀ i, i < d0 →
            ((List.range world_size).map (fun r =>
              ((((List.range d0).map (fun j =>
                (view.data.drop (j * (d1 * rest.prod) +
                  r * (d1 / world_size * rest.prod))).take
                  (d1 / world_size * rest.prod))).flatten).drop
                (i * (d1 / world_size * rest.prod))).take
                (d1 / world_size * rest.prod))).flatten =
            (view.data.drop (i * (d1 * rest.prod))).take (d1 * rest.prod) := by
          intro i hi
          have hchunk : ∀ r, r < world_size →
              ((((List.range d0).map (fun j =>
                (view.data.drop (j * (d1 * rest.prod) +
                  r * (d1 / world_size * rest.prod))).take
                  (d1 / world_size * rest.prod))).flatten).drop
                (i * (d1 / world_size * rest.prod))).take
                (d1 / world_size * rest.prod) =
              ((((view.data.drop (i * (d1 * rest.prod))).take (d1 * rest.prod)).drop
                  (r * (d1 / world_size * rest.prod))).take
                  (d1 / world_size * rest.prod)) := by
            intro r hr
            have hget := chunk_of_flatten
              ((List.range d0).map (fun j =>
                (view.data.drop (j * (d1 * rest.prod) +
                  r * (d1 / world_size * rest.prod))).take
                  (d1 / world_size * rest.prod)))
              (d1 / world_size * rest.prod) i
              (by
                intro p hp
                rw [List.mem_map] at hp
                obtain ⟨j, hj, rfl⟩ := hp
                exact length_drop_take _ _ _
                  (hpiecebound j r (List.mem_range.mp hj) hr))
              (by simpa using hi)
            rw [hget, get_map_range]
            have hblockin : r * (d1 / world_size * rest.prod) +
                d1 / world_size * rest.prod ≤ d1 * rest.prod := by
              rw [← Nat.succ_mul, ← hrs]
              exact Nat.mul_le_mul_right _ hr
            rw [take_drop_of_take view.data (i * (d1 * rest.prod)) (d1 * rest.prod)
              (r * (d1 / world_size * rest.prod)) (d1 / world_size * rest.prod)
              hblockin]
          have hmapeq : (List.range world_size).map (fun r =>
              ((((List.range d0).map (fun j =>
                (view.data.drop (j * (d1 * rest.prod) +
                  r * (d1 / world_size * rest.prod))).take
                  (d1 / world_size * rest.prod))).flatten).drop
                (i * (d1 / world_size * rest.prod))).take
                (d1 / world_size * rest.prod)) =
              (List.range world_size).map (fun r =>
                (((view.data.drop (i * (d1 * rest.prod))).take
                  (d1 * rest.prod)).drop (r * (d1 / world_size * rest.prod))).take
                  (d1 / world_size * rest.prod)) :=
            List.map_congr_left (fun r hr => hchunk r (List.mem_range.mp hr))
          rw [hmapeq]
          exact flatten_chunks world_size _ (d1 / world_size * rest.prod)
            (by
              rw [length_drop_take view.data (i * (d1 * rest.prod)) (d1 * rest.prod)
                (hrowbound i hi), ← hrs])
        have houter : (List.range d0).map (fun i =>
            ((List.range world_size).map (fun r =>
              ((((List.range d0).map (fun j =>
                (view.data.drop (j * (d1 * rest.prod) +
                  r * (d1 / world_size * rest.prod))).take
                  (d1 / world_size * rest.prod))).flatten).drop
                (i * (d1 / world_size * rest.prod))).take
                (d1 / world_size * rest.prod))).flatten) =
            (List.range d0).map (fun i =>
              (view.data.drop (i * (d1 * rest.prod))).take (d1 * rest.prod)) :=
          List.map_congr_left (fun i hi => hrow i (List.mem_range.mp hi))
        rw [houter]
        exact flatten_chunks d0 view.data (d1 * rest.prod) htot
      rw [hdata, hmul, hshape]

/-- Witness for C3 at `vbST`: the 2 by 4 view split two ways along dim 0 and
along dim 1. -/
theorem c3_sharded_concat_reconstructs_witness :
    (∃ shards : List Tensor,
      (List.range 2).map (fun r => vbST.get_sharded "w" 0 r 2) =
        shards.map Outcome.ok ∧
      catShards 0 shards =
        some ⟨viewA.shape, viewA.dtype, vbST.data.device, viewA.data⟩) ∧
    (∃ shards : List Tensor,
      (List.range 2).map (fun r => vbST.get_sharded "w" 1 r 2) =
        shards.map Outcome.ok ∧
      catShards 1 shards =
        some ⟨viewA.shape, viewA.dtype, vbST.data.device, viewA.data⟩) :=
  ⟨(c3_sharded_concat_reconstructs vbST "w" (buildRouting [[("w", viewA)]])
      [[("w", viewA)]] 0 [("w", viewA)] viewA 2 rfl rfl rfl rfl rfl
      (by decide)).1 2 [4] rfl (by decide),
   (c3_sharded_concat_reconstructs vbST "w" (buildRouting [[("w", viewA)]])
      [[("w", viewA)]] 0 [("w", viewA)] viewA 2 rfl rfl rfl rfl rfl
      (by decide)).2 2 4 [] rfl (by decide)⟩

/-- C8: `VarMap::load` never adds or removes entries (the key sequence of the
store is preserved in every outcome), and it is not transactional: when the
entries before some position all load and set successfully but that position's
path is missing from the source, `load` fails with the not-found error for that
path, the earlier entries keep their newly loaded values, and the entries from
the failing one on keep their previous values. -/
theorem c8_load_nontransactional (src : List (String × Tensor)) :
    (∀ m : List (String × Var),
      (VarMap.load m src).2.map Prod.fst = m.map Prod.fst) ∧
    (∀ (done rest : List (String × Var)) (name : String) (v : Var),
      (∀ e ∈ done, ∃ t, lookupA src e.1 = some t ∧
        ∃ v2, e.2.set (stFileLoad t e.2.tensor.device) = .ok v2) →
      lookupA src name = none →
      VarMap.load (done ++ (name, v) :: rest) src =
        (.error (.Msg ("cannot find tensor for " ++ name)),
         done.map (updateEntry src) ++ (name, v) :: rest)) := by
  constructor
  · intro m
    induction m with
    | nil => rfl
    | cons e m ih =>
      obtain ⟨name, v⟩ := e
      cases hfind : lookupA src name with
      | none => simp [VarMap.load, hfind]
      | some d =>
        cases hset : v.set (stFileLoad d v.tensor.device) with
        | error err => simp [VarMap.load, hfind, hset]
        | ok v2 => simp [VarMap.load, hfind, hset, ih]
  · intro done
    induction done with
    | nil =>
      intro rest name v _ hmiss
      simp only [List.nil_append, List.map_nil, VarMap.load, hmiss]
    | cons e done ih =>
      intro rest name v hdone hmiss
      obtain ⟨ename, ev⟩ := e
      obtain ⟨t, hfind, v2, hset⟩ := hdone (ename, ev) (List.mem_cons_self _ _)
      simp only [List.cons_append, VarMap.load, hfind, hset, List.map_cons,
        List.append_eq]
      rw [ih rest name v (fun q hq => hdone q (List.mem_cons_of_mem _ hq)) hmiss]
      simp only [updateEntry, hfind, hset]

/-- Witness for C8: loading `srcC8` (containing only path `a`) into the
three-entry registry `mapC8` fails on `b`; `a` keeps its freshly loaded value
and `b`, `c` keep their previous values, with the key sequence unchanged. -/
theorem c8_load_nontransactional_witness :
    (VarMap.load mapC8 srcC8).2.map Prod.fst = mapC8.map Prod.fst ∧
    VarMap.load ([("a", vA)] ++ ("b", vB) :: [("c", vC)]) srcC8 =
      (.error (.Msg ("cannot find tensor for " ++ "b")),
       [("a", vA)].map (updateEntry srcC8) ++ ("b", vB) :: [("c", vC)]) :=
  ⟨(c8_load_nontransactional srcC8).1 mapC8,
   (c8_load_nontransactional srcC8).2 [("a", vA)] [("c", vC)] "b" vB
    (by
      intro e he
      rw [List.mem_singleton] at he
      subst he
      exact ⟨tSrc, rfl, ⟨tSrc⟩, rfl⟩)
    rfl⟩


end Candle
